import Mathlib

/-!
Verification of the DomainBench pairwise evaluation and aggregation pipeline.

The definitions below are a shallow embedding of the Python sources:
  * `domainbench/core/evaluator.py`  (judge protocol, swap mitigation)
  * `domainbench/core/engine.py`     (orchestrator, statistics, summary)
  * `domainbench/capabilities/chat_completion.py` (message building, validation)

Python floats are modelled by `FF` (rationals extended with NaN and the two
infinities, which `json.loads` can produce from `NaN` / `Infinity` literals);
JSON documents by `JVal`; provider network calls by oracle functions
`List Msg → String` whose invocations are recorded as `GatewayCall` values.
-/

namespace DomainBench

/-- Model of a Python float as produced by `json.loads` / `float(...)`:
either NaN, +inf, -inf, or an exact rational.  Comparison semantics used by
the source's `clamp_score` (`NaN < x` and `NaN > x` are both false) are baked
into the case analyses of the functions below. -/
inductive FF where
  | nan : FF
  | inf : FF
  | ninf : FF
  | rat : ℚ → FF
deriving DecidableEq, Repr

/-- Python `+` on our float model (used for score averaging). -/
def ffAdd : FF → FF → FF
  | .nan, _ => .nan
  | _, .nan => .nan
  | .inf, .ninf => .nan
  | .ninf, .inf => .nan
  | .inf, _ => .inf
  | _, .inf => .inf
  | .ninf, _ => .ninf
  | _, .ninf => .ninf
  | .rat a, .rat b => .rat (a + b)

/-- Python `x / 2` on our float model. -/
def ffHalf : FF → FF
  | .rat q => .rat (q / 2)
  | v => v

/-- Sum of a list of floats, as Python `sum` (starting from `0`). -/
def ffSum (l : List FF) : FF := l.foldl ffAdd (.rat 0)

/-- Python `x / n` for a positive natural `n` (list length in averages). -/
def ffDivNat (x : FF) (n : ℕ) : FF :=
  match x with
  | .rat q => .rat (q / (n : ℚ))
  | v => v

/-- Round-half-to-even to the nearest integer, the tie-breaking rule of
Python's builtin `round`. -/
def roundHalfEven (x : ℚ) : ℤ :=
  let f := ⌊x⌋
  let r := x - (f : ℚ)
  if r < 1 / 2 then f
  else if 1 / 2 < r then f + 1
  else if f % 2 = 0 then f else f + 1

/-- Python `round(x, d)`: NaN and infinities pass through, rationals are
rounded half-to-even to `d` decimal places. -/
def ffRound (d : ℕ) : FF → FF
  | .rat q => .rat ((roundHalfEven (q * 10 ^ d) : ℚ) / 10 ^ d)
  | v => v

/-- Checks that a score value is a rational in the interval `[0, 10]`
(NaN and the infinities are not; this is the formal reading of the spec's
"scores lie in [0,10]"). -/
def ffIn0to10 : FF → Bool
  | .rat q => decide (0 ≤ q ∧ q ≤ 10)
  | _ => false

/-- A JSON document as decoded by Python's `json.loads`: null, booleans,
numbers (our float model), strings, arrays and objects. -/
inductive JVal where
  | null : JVal
  | bool : Bool → JVal
  | num : FF → JVal
  | str : String → JVal
  | arr : List JVal → JVal
  | obj : List (String × JVal) → JVal

mutual

/-- Structural equality of decoded JSON values (Python `==` restricted to
JSON data). -/
def beqJ : JVal → JVal → Bool
  | .null, .null => true
  | .bool a, .bool b => a = b
  | .num a, .num b => a = b
  | .str a, .str b => a = b
  | .arr a, .arr b => beqJList a b
  | .obj a, .obj b => beqJKVs a b
  | _, _ => false

/-- Elementwise equality of JSON arrays. -/
def beqJList : List JVal → List JVal → Bool
  | [], [] => true
  | a :: l1, b :: l2 => beqJ a b && beqJList l1 l2
  | _, _ => false

/-- Memberwise equality of JSON objects. -/
def beqJKVs : List (String × JVal) → List (String × JVal) → Bool
  | [], [] => true
  | (k1, v1) :: t1, (k2, v2) :: t2 => k1 = k2 && beqJ v1 v2 && beqJKVs t1 t2
  | _, _ => false

end

/-- First-match lookup in an object's key/value list (parsed objects have
unique keys, so this is Python's `dict.get`). -/
def lookupKV : List (String × JVal) → String → Option JVal
  | [], _ => none
  | (k1, v1) :: t, k => if k1 = k then some v1 else lookupKV t k

/-- Python `obj.get(k)` on a decoded JSON value (`none` on non-dicts). -/
def jget (v : JVal) (k : String) : Option JVal :=
  match v with
  | .obj kvs => lookupKV kvs k
  | _ => none

/-- Python `obj.get(k, d)`. -/
def jgetD (v : JVal) (k : String) (d : JVal) : JVal := (jget v k).getD d

/-- Rendering of a number by Python `str` (approximate: exact float repr is
not needed by any claim; integral values print like Python floats). -/
def ffRepr : FF → String
  | .nan => "nan"
  | .inf => "inf"
  | .ninf => "-inf"
  | .rat q => if q.den = 1 then toString q.num ++ ".0" else toString q

mutual

/-- Python `repr` of a decoded JSON value (approximate string quoting, used
only inside `pyStr`; no claim inspects its output). -/
def pyRepr : JVal → String
  | .null => "None"
  | .bool true => "True"
  | .bool false => "False"
  | .num f => ffRepr f
  | .str s => "'" ++ s ++ "'"
  | .arr l => "[" ++ pyReprSeq l ++ "]"
  | .obj kvs => "\x7b" ++ pyReprKVs kvs ++ "\x7d"

/-- Comma-joined reprs of array elements. -/
def pyReprSeq : List JVal → String
  | [] => ""
  | [v] => pyRepr v
  | v :: vs => pyRepr v ++ ", " ++ pyReprSeq vs

/-- Comma-joined reprs of object members. -/
def pyReprKVs : List (String × JVal) → String
  | [] => ""
  | [(k, v)] => "'" ++ k ++ "': " ++ pyRepr v
  | (k, v) :: t => "'" ++ k ++ "': " ++ pyRepr v ++ ", " ++ pyReprKVs t

end

/-- Python `str(x)` on a decoded JSON value: strings are themselves, other
values use their repr. -/
def pyStr : JVal → String
  | .str s => s
  | v => pyRepr v

/-- Digit list to natural number. -/
def digitsToNat (l : List Char) : ℕ :=
  l.foldl (fun acc c => acc * 10 + (c.toNat - '0'.toNat)) 0

/-- Decimal part of Python `float(str)`: digits, optional fraction, optional
exponent; `sign` is `1` or `-1`. -/
def pyFloatDec (sign : ℤ) (t : List Char) : Option FF :=
  let d1 := t.takeWhile Char.isDigit
  let r1 := t.dropWhile Char.isDigit
  let d2 := match r1 with
    | '.' :: r => r.takeWhile Char.isDigit
    | _ => []
  let r2 := match r1 with
    | '.' :: r => r.dropWhile Char.isDigit
    | _ => r1
  if d1.isEmpty ∧ d2.isEmpty then none
  else
    let mant : ℚ := (digitsToNat (d1 ++ d2) : ℚ) / (10 : ℚ) ^ d2.length
    match r2 with
    | [] => some (.rat (sign * mant))
    | 'e' :: r3 =>
        let esign : ℤ := match r3 with
          | '-' :: _ => -1
          | _ => 1
        let r4 := match r3 with
          | '+' :: r => r
          | '-' :: r => r
          | r => r
        let ed := r4.takeWhile Char.isDigit
        let r5 := r4.dropWhile Char.isDigit
        if ed.isEmpty ∨ ¬ r5.isEmpty then none
        else
          let e := digitsToNat ed
          some (.rat (sign * mant * (if esign = 1 then (10 : ℚ) ^ e else ((10 : ℚ) ^ e)⁻¹)))
    | _ => none

/-- Python `float(s)` on a string: strips whitespace, accepts an optional
sign, `inf`/`infinity`/`nan` (case-insensitively), or a decimal literal. -/
def pyFloatOfString (s : String) : Option FF :=
  let t := s.trim.toLower.toList
  let sign : ℤ := match t with
    | '-' :: _ => -1
    | _ => 1
  let t1 := match t with
    | '+' :: r => r
    | '-' :: r => r
    | r => r
  if t1 = "inf".toList ∨ t1 = "infinity".toList then
    some (if sign = 1 then .inf else .ninf)
  else if t1 = "nan".toList then some .nan
  else pyFloatDec sign t1

/-- Python `float(x)` on a decoded JSON value: numbers pass through,
booleans become 0/1, strings are parsed, everything else raises
(modelled as `none`). -/
def pyFloat : JVal → Option FF
  | .num f => some f
  | .bool b => some (.rat (if b then 1 else 0))
  | .str s => pyFloatOfString s
  | _ => none

/-- `clamp_score`'s clamping step (evaluator.py lines 66-75): two sequential
`if`s using Python float comparisons, under which NaN compares false to
everything and therefore passes through unchanged. -/
def clampFF : FF → FF
  | .nan => .nan
  | .inf => .rat 10
  | .ninf => .rat 0
  | .rat q => .rat (if q < 0 then 0 else if q > 10 then 10 else q)

/-- `clamp_score` from evaluator.py: `float(x)` with fallback to `0.0` on
failure, then clamping. -/
def clamp_score (v : JVal) : FF :=
  match pyFloat v with
  | none => .rat 0
  | some f => clampFF f

/-- A normalized judge verdict, the return shape of
`normalize_judge_result` (a dict with these four keys in the source). -/
structure NormVerdict where
  winner : String
  score_A : FF
  score_B : FF
  reasons : List String
deriving DecidableEq, Repr

/-- The `reasons` normalization of `normalize_judge_result`: non-lists are
wrapped via `str`, every element is passed through `str`, and the list is
truncated to 8 entries. -/
def reasonsOf (v : JVal) : List String :=
  (match v with
   | .arr l => l.map pyStr
   | x => [pyStr x]).take 8

/-- `normalize_judge_result` from evaluator.py lines 57-84. -/
def normalize_judge_result (obj : JVal) : NormVerdict :=
  match obj with
  | .obj kvs =>
      let w := jgetD (.obj kvs) "winner" (.str "tie")
      { winner :=
          match w with
          | .str s => if s = "A" ∨ s = "B" ∨ s = "tie" then s else "tie"
          | _ => "tie",
        score_A := clamp_score (jgetD (.obj kvs) "score_A" (.num (.rat 0))),
        score_B := clamp_score (jgetD (.obj kvs) "score_B" (.num (.rat 0))),
        reasons := reasonsOf (jgetD (.obj kvs) "reasons" (.arr [])) }
  | _ =>
      { winner := "tie", score_A := .rat 0, score_B := .rat 0,
        reasons := ["Invalid judge output (not a dict)."] }

/-- `swap_mitigated_winner` from evaluator.py lines 87-109: remap the
swapped-order winner back to original labels and require agreement. -/
def swap_mitigated_winner (j_ab j_ba : NormVerdict) : String :=
  let w1 := j_ab.winner
  let w2 := j_ba.winner
  let w2_mapped := if w2 = "A" then "B" else if w2 = "B" then "A" else "tie"
  if w1 = w2_mapped then w1 else "tie"

/-- Accumulator pass of `dedupFirst`: keep elements not yet seen. -/
def dedupFirstAux {α : Type} [DecidableEq α] (seen : List α) : List α → List α
  | [] => []
  | x :: xs =>
    if x ∈ seen then dedupFirstAux seen xs
    else x :: dedupFirstAux (x :: seen) xs

/-- Order-preserving deduplication keeping the first occurrence
(Python `list(dict.fromkeys(l))` and dict-key collapsing). -/
def dedupFirst {α : Type} [DecidableEq α] (l : List α) : List α :=
  dedupFirstAux [] l

/-- The reconciled verdict returned by `JudgeEvaluator.evaluate_pair`
(winner, averaged rounded scores, merged reasons, plus both raw verdicts). -/
structure ReconciledVerdict where
  winner : String
  score_A : FF
  score_B : FF
  reasons : List String
  raw_ab : NormVerdict
  raw_ba : NormVerdict
deriving DecidableEq, Repr

/-- The combination step of `evaluate_pair` (evaluator.py lines 156-174):
swap mitigation for the winner, swap-corrected score averaging rounded to
one decimal, and deduplicated reasons capped at 6. -/
def combineVerdicts (j_ab j_ba : NormVerdict) : ReconciledVerdict :=
  { winner := swap_mitigated_winner j_ab j_ba,
    score_A := ffRound 1 (ffHalf (ffAdd j_ab.score_A j_ba.score_B)),
    score_B := ffRound 1 (ffHalf (ffAdd j_ab.score_B j_ba.score_A)),
    reasons := (dedupFirst (j_ab.reasons ++ j_ba.reasons)).take 6,
    raw_ab := j_ab,
    raw_ba := j_ba }

/-- Spec-side remapping of a swapped-order winner, written from the spec's
words: its "A" means original B, its "B" means original A, "tie" stays
"tie". -/
def specRemapWinner (w : String) : String :=
  if w = "A" then "B" else if w = "B" then "A" else "tie"

/-- Spec-side reading of the clamping contract for one score, amended for
NaN: missing/non-numeric raw values become 0, NaN passes through, +inf
clamps to 10, -inf clamps to 0, and a rational is clamped into [0,10]. -/
def clampSpec (x : Option FF) (s : FF) : Prop :=
  match x with
  | none => s = .rat 0
  | some .nan => s = .nan
  | some .inf => s = .rat 10
  | some .ninf => s = .rat 0
  | some (.rat q) => s = .rat (if q < 0 then 0 else if q > 10 then 10 else q)

/-- JSON whitespace (as accepted between tokens by `json.loads`). -/
def isJsonWs (c : Char) : Bool :=
  c = ' ' ∨ c = '\t' ∨ c = '\n' ∨ c = '\r'

/-- Python `str.strip` whitespace set. -/
def isPyWs (c : Char) : Bool :=
  c = ' ' ∨ c = '\t' ∨ c = '\n' ∨ c = '\r' ∨ c = '\x0b' ∨ c = '\x0c'

/-- Strip leading and trailing Python whitespace from a char list. -/
def stripChars (l : List Char) : List Char :=
  ((l.dropWhile isPyWs).reverse.dropWhile isPyWs).reverse

/-- Drop a literal token from the front, or fail. -/
def dropLit : List Char → List Char → Option (List Char)
  | [], cs => some cs
  | _ :: _, [] => none
  | l :: ls, c :: cs => if l = c then dropLit ls cs else none

/-- Hex digit value. -/
def hexVal (c : Char) : Option ℕ :=
  if '0' ≤ c ∧ c ≤ '9' then some (c.toNat - '0'.toNat)
  else if 'a' ≤ c ∧ c ≤ 'f' then some (c.toNat - 'a'.toNat + 10)
  else if 'A' ≤ c ∧ c ≤ 'F' then some (c.toNat - 'A'.toNat + 10)
  else none

/-- Body of a JSON string (after the opening quote), with the usual escape
sequences; returns the decoded string and the remaining input. -/
def parseStrBody : ℕ → List Char → List Char → Option (String × List Char)
  | 0, _, _ => none
  | _ + 1, _, [] => none
  | fuel + 1, acc, c :: cs =>
    if c = '"' then some (String.mk acc.reverse, cs)
    else if c = '\\' then
      match cs with
      | [] => none
      | e :: cs1 =>
        if e = '"' then parseStrBody fuel ('"' :: acc) cs1
        else if e = '\\' then parseStrBody fuel ('\\' :: acc) cs1
        else if e = '/' then parseStrBody fuel ('/' :: acc) cs1
        else if e = 'b' then parseStrBody fuel ('\x08' :: acc) cs1
        else if e = 'f' then parseStrBody fuel ('\x0c' :: acc) cs1
        else if e = 'n' then parseStrBody fuel ('\n' :: acc) cs1
        else if e = 'r' then parseStrBody fuel ('\r' :: acc) cs1
        else if e = 't' then parseStrBody fuel ('\t' :: acc) cs1
        else if e = 'u' then
          match cs1 with
          | h1 :: h2 :: h3 :: h4 :: cs2 =>
            match hexVal h1, hexVal h2, hexVal h3, hexVal h4 with
            | some a, some b, some c3, some d =>
                parseStrBody fuel
                  (Char.ofNat (((a * 16 + b) * 16 + c3) * 16 + d) :: acc) cs2
            | _, _, _, _ => none
          | _ => none
        else none
    else parseStrBody fuel (c :: acc) cs

/-- JSON number (after an optional leading `-` handled by the caller):
digits, optional fraction, optional exponent. -/
def parseNum (sign : ℤ) (cs : List Char) : Option (FF × List Char) :=
  let d1 := cs.takeWhile Char.isDigit
  let r1 := cs.dropWhile Char.isDigit
  if d1.isEmpty then none
  else
    let d2 := match r1 with
      | '.' :: r => r.takeWhile Char.isDigit
      | _ => []
    let r2 := match r1 with
      | '.' :: r => if (r.takeWhile Char.isDigit).isEmpty then '.' :: r
                    else r.dropWhile Char.isDigit
      | _ => r1
    let hadFrac := match r1 with
      | '.' :: r => ¬ (r.takeWhile Char.isDigit).isEmpty
      | _ => False
    let mant : ℚ := (digitsToNat (d1 ++ d2) : ℚ) / (10 : ℚ) ^ d2.length
    match r2 with
    | 'e' :: r3 =>
        let esign : ℤ := match r3 with
          | '-' :: _ => -1
          | _ => 1
        let r4 := match r3 with
          | '+' :: r => r
          | '-' :: r => r
          | r => r
        let ed := r4.takeWhile Char.isDigit
        let r5 := r4.dropWhile Char.isDigit
        if ed.isEmpty then none
        else
          let e := digitsToNat ed
          some (.rat (sign * mant * (if esign = 1 then (10 : ℚ) ^ e else ((10 : ℚ) ^ e)⁻¹)), r5)
    | 'E' :: r3 =>
        let esign : ℤ := match r3 with
          | '-' :: _ => -1
          | _ => 1
        let r4 := match r3 with
          | '+' :: r => r
          | '-' :: r => r
          | r => r
        let ed := r4.takeWhile Char.isDigit
        let r5 := r4.dropWhile Char.isDigit
        if ed.isEmpty then none
        else
          let e := digitsToNat ed
          some (.rat (sign * mant * (if esign = 1 then (10 : ℚ) ^ e else ((10 : ℚ) ^ e)⁻¹)), r5)
    | _ =>
        let _ := hadFrac
        some (.rat (sign * mant), r2)

/-- Insert a key/value pair into an object member list, overwriting the
value of an existing key in place (Python dict semantics for duplicate
JSON keys: last value wins, first position kept). -/
def objUpsert (kvs : List (String × JVal)) (k : String) (v : JVal) :
    List (String × JVal) :=
  if kvs.any (fun p => p.1 = k) then
    kvs.map (fun p => if p.1 = k then (k, v) else p)
  else kvs ++ [(k, v)]

mutual

/-- One JSON value, fuel-bounded (the fuel strictly exceeds the nesting
depth whenever it exceeds the input length). -/
def parseJ : ℕ → List Char → Option (JVal × List Char)
  | 0, _ => none
  | fuel + 1, cs0 =>
    let cs := cs0.dropWhile isJsonWs
    match cs with
    | [] => none
    | c :: cs1 =>
      if c = 'n' then (dropLit "ull".toList cs1).map (fun r => (.null, r))
      else if c = 't' then (dropLit "rue".toList cs1).map (fun r => (.bool true, r))
      else if c = 'f' then (dropLit "alse".toList cs1).map (fun r => (.bool false, r))
      else if c = 'N' then (dropLit "aN".toList cs1).map (fun r => (.num .nan, r))
      else if c = 'I' then (dropLit "nfinity".toList cs1).map (fun r => (.num .inf, r))
      else if c = '"' then (parseStrBody (cs1.length + 1) [] cs1).map
        (fun p => (.str p.1, p.2))
      else if c = '[' then parseArr fuel cs1
      else if c = '\x7b' then parseObj fuel cs1
      else if c = '-' then
        match cs1 with
        | 'I' :: cs2 => (dropLit "nfinity".toList cs2).map (fun r => (.num .ninf, r))
        | _ => (parseNum (-1) cs1).map (fun p => (.num p.1, p.2))
      else (parseNum 1 cs).map (fun p => (.num p.1, p.2))

termination_by structural fuel _ => fuel
/-- Array items after the opening bracket. -/
def parseArr : ℕ → List Char → Option (JVal × List Char)
  | 0, _ => none
  | fuel + 1, cs0 =>
    let cs := cs0.dropWhile isJsonWs
    match cs with
    | ']' :: r => some (.arr [], r)
    | _ =>
      match parseJ fuel cs with
      | none => none
      | some (v, r) => parseArrTail fuel [v] r

termination_by structural fuel _ => fuel
/-- Remaining array items, accumulating in reverse. -/
def parseArrTail : ℕ → List JVal → List Char → Option (JVal × List Char)
  | 0, _, _ => none
  | fuel + 1, acc, cs0 =>
    let cs := cs0.dropWhile isJsonWs
    match cs with
    | ']' :: r => some (.arr acc.reverse, r)
    | ',' :: r =>
      match parseJ fuel r with
      | none => none
      | some (v, r1) => parseArrTail fuel (v :: acc) r1
    | _ => none

termination_by structural fuel _ _ => fuel
/-- Object members after the opening brace. -/
def parseObj : ℕ → List Char → Option (JVal × List Char)
  | 0, _ => none
  | fuel + 1, cs0 =>
    let cs := cs0.dropWhile isJsonWs
    match cs with
    | '\x7d' :: r => some (.obj [], r)
    | '"' :: cs1 =>
      match parseStrBody (cs1.length + 1) [] cs1 with
      | none => none
      | some (k, r) =>
        match (r.dropWhile isJsonWs) with
        | ':' :: r1 =>
          match parseJ fuel r1 with
          | none => none
          | some (v, r2) => parseObjTail fuel (objUpsert [] k v) r2
        | _ => none
    | _ => none

termination_by structural fuel _ => fuel
/-- Remaining object members. -/
def parseObjTail : ℕ → List (String × JVal) → List Char →
    Option (JVal × List Char)
  | 0, _, _ => none
  | fuel + 1, acc, cs0 =>
    let cs := cs0.dropWhile isJsonWs
    match cs with
    | '\x7d' :: r => some (.obj acc, r)
    | ',' :: r =>
      match r.dropWhile isJsonWs with
      | '"' :: cs1 =>
        match parseStrBody (cs1.length + 1) [] cs1 with
        | none => none
        | some (k, r1) =>
          match r1.dropWhile isJsonWs with
          | ':' :: r2 =>
            match parseJ fuel r2 with
            | none => none
            | some (v, r3) => parseObjTail fuel (objUpsert acc k v) r3
          | _ => none
      | _ => none
    | _ => none

termination_by structural fuel _ _ => fuel
end

/-- Python `json.loads`: a single JSON document with only whitespace
around it, else failure. -/
def jsonLoads (s : String) : Option JVal :=
  let cs := s.toList
  match parseJ (cs.length + 1) cs with
  | some (v, rest) => if (rest.dropWhile isJsonWs).isEmpty then some v else none
  | none => none

/-- Index of the first occurrence of `nee` in a char list, like
Python `str.find` (`none` for "not found"). -/
def findSub (nee : List Char) : List Char → Option ℕ
  | [] => if nee.isEmpty then some 0 else none
  | c :: t =>
    if nee.isPrefixOf (c :: t) then some 0
    else (findSub nee t).map (fun i => i + 1)

/-- `safe_json_loads` from evaluator.py lines 37-54: extract a payload from
a ```json or ``` markdown fence when a closing fence follows, strip it, and
parse; otherwise parse the raw reply. -/
def safe_json_loads (s : String) : Option JVal :=
  let cs := s.toList
  let body :=
    match findSub "```json".toList cs with
    | some i =>
        let start := i + 7
        let after := cs.drop start
        match findSub "```".toList after with
        | some j => if 0 < j then stripChars (after.take j) else cs
        | none => cs
    | none =>
        match findSub "```".toList cs with
        | some i =>
            let start := i + 3
            let after := cs.drop start
            match findSub "```".toList after with
            | some j => if 0 < j then stripChars (after.take j) else cs
            | none => cs
        | none => cs
  jsonLoads (String.mk body)

/-- A chat message as passed to a provider (`{"role": ..., "content": ...}`). -/
structure Msg where
  role : String
  content : String
deriving DecidableEq, Repr

/-- A recorded network call to a model or judge gateway: the model id and
the messages sent (the embedding of one `provider.chat_completion` call). -/
structure GatewayCall where
  model : String
  messages : List Msg
deriving DecidableEq, Repr

/-- `JUDGE_PROMPT_TEMPLATE.format(...)` from evaluator.py: the judge prompt
with the role, conversation transcript and both responses substituted
(the doubled braces of the template render as single braces). -/
def judgePrompt (role conversation response_a response_b : String) : String :=
  "You are evaluating two assistant responses in the role of: " ++ role ++
  "\n\nPick the better response based on:\n" ++
  "1) Task accuracy & completeness\n" ++
  "2) Safe handling of constraints and edge cases\n" ++
  "3) Appropriate clarifying questions (ask when needed; avoid excessive questions)\n" ++
  "4) Natural, helpful tone (polite, concise, professional)\n" ++
  "5) Memory across turns (no contradictions; respects earlier constraints)\n" ++
  "6) Actionability (clear next steps; offers alternatives when needed)\n" ++
  "\nReturn STRICT JSON (no markdown), schema exactly:\n" ++
  "\x7b\"winner\":\"A\"|\"B\"|\"tie\",\"score_A\":0-10,\"score_B\":0-10,\"reasons\":[string,...]\x7d\n" ++
  "\nConversation (multi-turn user messages):\n" ++ conversation ++
  "\n\nResponse A:\n" ++ response_a ++
  "\n\nResponse B:\n" ++ response_b ++ "\n"

/-- The corrective re-prompt appended after a malformed judge reply
(evaluator.py line 211). -/
def correctiveInstruction : String :=
  "Your previous output was not valid JSON. Output ONLY strict JSON per the schema."

/-- The deterministic fallback verdict after the retry budget is exhausted
(evaluator.py lines 214-219). -/
def fallbackVerdict (last_text : String) : NormVerdict :=
  { winner := "tie", score_A := .rat 0, score_B := .rat 0,
    reasons := ["Judge output not parseable as JSON. Last: " ++ last_text.take 200] }

/-- The retry loop of `JudgeEvaluator._judge_once`: `fuel` counts remaining
attempts (`max_retries + 1` at the top call); each attempt sends the
current conversation to the judge gateway, and a parse failure appends the
malformed reply plus the corrective instruction before retrying.  Returns
the verdict together with the recorded judge gateway calls. -/
def judgeOnceAux (reply : List Msg → String) (model : String) :
    ℕ → List Msg → String → NormVerdict × List GatewayCall
  | 0, _, last_text => (fallbackVerdict last_text, [])
  | fuel + 1, messages, _ =>
    let text := reply messages
    match safe_json_loads text with
    | some o => (normalize_judge_result o, [⟨model, messages⟩])
    | none =>
        let rest := judgeOnceAux reply model fuel
          (messages ++ [⟨"assistant", text⟩, ⟨"user", correctiveInstruction⟩]) text
        (rest.1, ⟨model, messages⟩ :: rest.2)

/-- `JudgeEvaluator._judge_once` (evaluator.py lines 176-219): one judged
comparison with bounded re-prompting. -/
def judge_once (reply : List Msg → String) (model : String) (max_retries : ℕ)
    (prompt : String) : NormVerdict × List GatewayCall :=
  judgeOnceAux reply model (max_retries + 1) [⟨"user", prompt⟩] ""

/-- The conversation transcript built by `evaluate_pair` (line 148):
`USER[i+1]: <turn>` lines joined by newlines. -/
def convTranscript (conversation : List JVal) : String :=
  String.intercalate "\n"
    (conversation.enum.map
      (fun p => "USER[" ++ toString (p.1 + 1) ++ "]: " ++ pyStr p.2))

/-- `JudgeEvaluator.evaluate_pair` (evaluator.py lines 133-174): judge in
both orders, reconcile.  The `system_prompt` parameter is accepted and
ignored, as in the source.  Returns the reconciled verdict and the judge
gateway calls in order. -/
def evaluate_pair (reply : List Msg → String) (model : String)
    (max_retries : ℕ) (conversation : List JVal)
    (response_a response_b : String) (system_prompt : String := "")
    (role : String := "a helpful assistant") :
    ReconciledVerdict × List GatewayCall :=
  let _ := system_prompt
  let conv_text := convTranscript conversation
  let r1 := judge_once reply model max_retries
    (judgePrompt role conv_text response_a response_b)
  let r2 := judge_once reply model max_retries
    (judgePrompt role conv_text response_b response_a)
  (combineVerdicts r1.1 r2.1, r1.2 ++ r2.2)

/-- Python iteration over a decoded JSON value as done by `for turn in
turns` / `enumerate(conversation)`: lists yield elements, strings yield
their characters; other non-iterables raise in the source (not modelled:
no claim reaches them, we return the empty iteration). -/
def pyIter : JVal → List JVal
  | .arr l => l
  | .str s => s.toList.map (fun c => .str (String.mk [c]))
  | _ => []

/-- Message content for a conversation turn; the source passes the raw
value through, which is a string in every dataset (other values are
stringified here to keep `Msg.content` a string). -/
def turnContent : JVal → String
  | .str s => s
  | v => pyStr v

/-- `ChatCompletionCapability.build_messages` (chat_completion.py lines
22-58): optional system message (skipped for an empty prompt, Python
truthiness) followed by every turn as a user message. -/
def build_messages (test_case : JVal) (system_prompt : String) : List Msg :=
  (if system_prompt = "" then [] else [⟨"system", system_prompt⟩]) ++
  (pyIter (jgetD test_case "turns" (.arr []))).map
    (fun t => ⟨"user", turnContent t⟩)

/-- `ChatCompletionCapability.validate_test_case` (chat_completion.py lines
60-69): requires a `turns` key holding a non-empty list.  NOTE: defined by
the capability plugin but never invoked by the loader or the engine. -/
def validate_test_case (test_case : JVal) : Bool :=
  match jget test_case "turns" with
  | none => false
  | some (.arr l) => ¬ l.isEmpty
  | some _ => false

/-- A configured model (`ModelConfig`): the `display_name` keys all
statistics maps in the source. -/
structure ModelCfg where
  provider : String
  model : String
  display_name : String
deriving DecidableEq, Repr

/-- Per-(model, capability) counters and score list (one cell of the
engine's `model_stats`). -/
structure CapStat where
  wins : ℕ
  ties : ℕ
  losses : ℕ
  scores : List FF
deriving DecidableEq, Repr

/-- Per-(category, model) counters (one cell of `category_stats`). -/
structure CatStat where
  wins : ℕ
  ties : ℕ
deriving DecidableEq, Repr

/-- The zero statistics cell (`{"wins": 0, "ties": 0, "losses": 0,
"scores": []}`). -/
def CapStat.zero : CapStat := ⟨0, 0, 0, []⟩

/-- The zero category cell. -/
def CatStat.zero : CatStat := ⟨0, 0⟩

/-- Engine configuration together with the network oracles: `gateway`
models `provider.chat_completion` for the candidate models (keyed by model
id) and `judgeGateway` the judge provider.  Latency and token metrics are
wall-clock concerns and are not modelled. -/
structure EngineCfg where
  models : List ModelCfg
  capabilities : List String
  system_prompt : String
  judgeModel : String
  maxItems : Option ℕ
  gateway : String → List Msg → String
  judgeGateway : List Msg → String

/-- The capability names the engine iterates over: `self.capabilities` is a
dict built from the configured names, so duplicates collapse keeping first
position. -/
def capsOf (cfg : EngineCfg) : List String := dedupFirst cfg.capabilities

/-- The per-case result record appended to `self.results` (the fields of
`BenchmarkResult` that carry data: timing metrics are not modelled). -/
structure CaseRecord where
  test_id : JVal
  category : JVal
  capability : String
  response_a : String
  response_b : String
  score_A : FF
  score_B : FF
  winner : String
  judge_reasons : List String

/-- One (test case, capability) cell of the engine loop (engine.py lines
148-207 minus the statistics update): generate both responses, judge the
pair, and record both gateway calls plus the judge calls. -/
def caseCell (cfg : EngineCfg) (ma mb : ModelCfg) (idx : ℕ) (tc : JVal)
    (cap : String) : CaseRecord × List GatewayCall :=
  let messages := build_messages tc cfg.system_prompt
  let response_a := cfg.gateway ma.model messages
  let response_b := cfg.gateway mb.model messages
  let jr := evaluate_pair cfg.judgeGateway cfg.judgeModel 2
    (pyIter (jgetD tc "turns" (.arr []))) response_a response_b
    cfg.system_prompt "a helpful assistant"
  ({ test_id := jgetD tc "id" (.str ("case_" ++ toString idx)),
     category := jgetD tc "category" (.str "unknown"),
     capability := cap,
     response_a := response_a,
     response_b := response_b,
     score_A := jr.1.score_A,
     score_B := jr.1.score_B,
     winner := jr.1.winner,
     judge_reasons := jr.1.reasons },
   ⟨ma.model, messages⟩ :: ⟨mb.model, messages⟩ :: jr.2)

/-- The result records a single test case contributes (one per configured
capability). -/
def caseResults (cfg : EngineCfg) (ma mb : ModelCfg) (idx : ℕ) (tc : JVal) :
    List CaseRecord :=
  (capsOf cfg).map (fun cap => (caseCell cfg ma mb idx tc cap).1)

/-- Mutable engine state during a run: statistics for the first and second
configured model (keyed positionally; the source keys by `display_name`,
which coincides whenever the two display names differ), category
statistics, the append-only result log, and the gateway call log. -/
structure RunState where
  statsA : String → CapStat
  statsB : String → CapStat
  catA : JVal → CatStat
  catB : JVal → CatStat
  results : List CaseRecord
  calls : List GatewayCall

/-- The all-zero starting state (engine.py lines 110-117). -/
def initialState : RunState :=
  { statsA := fun _ => CapStat.zero,
    statsB := fun _ => CapStat.zero,
    catA := fun _ => CatStat.zero,
    catB := fun _ => CatStat.zero,
    results := [],
    calls := [] }

/-- Point update of the category-keyed statistics map (the dictionary key
test uses structural JSON equality). -/
def bumpCat (f : JVal → CatStat) (key : JVal) (g : CatStat → CatStat) :
    JVal → CatStat :=
  fun c => if beqJ c key then g (f c) else f c

/-- Point update of a capability-keyed statistics map. -/
def bumpCap (f : String → CapStat) (cap : String) (g : CapStat → CapStat) :
    String → CapStat :=
  fun c => if c = cap then g (f c) else f c

/-- The three-way statistics update on a reconciled winner (engine.py lines
167-183): exactly one of win/loss for the two models, or a tie for both;
then both scores are appended and the record is logged. -/
def applyRecord (st : RunState) (r : CaseRecord) : RunState :=
  let st1 :=
    if r.winner = "A" then
      { st with
        statsA := bumpCap st.statsA r.capability (fun s => { s with wins := s.wins + 1 }),
        statsB := bumpCap st.statsB r.capability (fun s => { s with losses := s.losses + 1 }),
        catA := bumpCat st.catA r.category (fun s => { s with wins := s.wins + 1 }) }
    else if r.winner = "B" then
      { st with
        statsB := bumpCap st.statsB r.capability (fun s => { s with wins := s.wins + 1 }),
        statsA := bumpCap st.statsA r.capability (fun s => { s with losses := s.losses + 1 }),
        catB := bumpCat st.catB r.category (fun s => { s with wins := s.wins + 1 }) }
    else
      { st with
        statsA := bumpCap st.statsA r.capability (fun s => { s with ties := s.ties + 1 }),
        statsB := bumpCap st.statsB r.capability (fun s => { s with ties := s.ties + 1 }),
        catA := bumpCat st.catA r.category (fun s => { s with ties := s.ties + 1 }),
        catB := bumpCat st.catB r.category (fun s => { s with ties := s.ties + 1 }) }
  { st1 with
    statsA := bumpCap st1.statsA r.capability
      (fun s => { s with scores := s.scores ++ [r.score_A] }),
    statsB := bumpCap st1.statsB r.capability
      (fun s => { s with scores := s.scores ++ [r.score_B] }),
    results := st1.results ++ [r] }

/-- Processing of one test case (the body of the engine's dataset loop,
engine.py lines 138-208): every configured capability produces a judged
record folded into the statistics, and all gateway calls are logged. -/
def processCase (cfg : EngineCfg) (ma mb : ModelCfg) (st : RunState)
    (idx : ℕ) (tc : JVal) : RunState :=
  let cells := (capsOf cfg).map (fun cap => caseCell cfg ma mb idx tc cap)
  let st1 := cells.foldl (fun s cell => applyRecord s cell.1) st
  { st1 with calls := st1.calls ++ (cells.map (fun cell => cell.2)).flatten }

/-- The engine's dataset loop over the (already truncated) dataset, with
zero-based `enumerate` indices. -/
def runPair (cfg : EngineCfg) (ma mb : ModelCfg) (ds : List JVal) : RunState :=
  ds.enum.foldl (fun st p => processCase cfg ma mb st p.1 p.2) initialState

/-- Totals of one model's summary (engine.py lines 271-295): wins, ties and
losses summed across capabilities, and the average of all scores rounded to
two decimals (0 when no scores). -/
structure ModelSummary where
  total_wins : ℕ
  total_ties : ℕ
  total_losses : ℕ
  avg_score : FF
deriving DecidableEq, Repr

/-- Per-model totals over the configured capabilities. -/
def capTotals (caps : List String) (stats : String → CapStat) : ModelSummary :=
  let cells := caps.map stats
  let all_scores := (cells.map (fun s => s.scores)).flatten
  { total_wins := (cells.map (fun s => s.wins)).sum,
    total_ties := (cells.map (fun s => s.ties)).sum,
    total_losses := (cells.map (fun s => s.losses)).sum,
    avg_score :=
      if all_scores.isEmpty then .rat 0
      else ffRound 2 (ffDivNat (ffSum all_scores) all_scores.length) }

/-- The run summary (the parts of `_build_summary` the claims are about). -/
structure Summary where
  total_test_cases : ℕ
  modelA : ModelSummary
  modelB : ModelSummary
  overall_winner : String
deriving DecidableEq, Repr

/-- `BenchmarkEngine._build_summary` (engine.py lines 256-309): totals per
model and the overall winner by strictly greater total win count, `"tie"`
on equality.  The source guards on two distinct model names (a dict with
two keys); the embedding assumes `nameA ≠ nameB`, which engine-level
theorems take as a hypothesis. -/
def build_summary (nameA nameB : String) (caps : List String)
    (statsA statsB : String → CapStat) (total_cases : ℕ) : Summary :=
  let sa := capTotals caps statsA
  let sb := capTotals caps statsB
  { total_test_cases := total_cases,
    modelA := sa,
    modelB := sb,
    overall_winner :=
      if sb.total_wins < sa.total_wins then nameA
      else if sa.total_wins < sb.total_wins then nameB
      else "tie" }

/-- A completed run: final state plus summary. -/
structure RunOutput where
  state : RunState
  summary : Summary

/-- Truncation by `settings.max_items` (engine.py lines 102-103; Python
truthiness: `None` and `0` mean no truncation). -/
def truncateDataset (maxItems : Option ℕ) (ds : List JVal) : List JVal :=
  match maxItems with
  | some n => if n = 0 then ds else ds.take n
  | none => ds

/-- `BenchmarkEngine.run` (engine.py lines 80-224): reject any model count
other than two with a `ValueError` before entering the loop (hence before
any gateway call — provider clients are created lazily), else drive the
dataset through the pipeline and build the summary.  Returns the outcome
together with the full gateway call log. -/
def engineRun (cfg : EngineCfg) (ds : List JVal) :
    Except String RunOutput × List GatewayCall :=
  match cfg.models with
  | [ma, mb] =>
      let dsT := truncateDataset cfg.maxItems ds
      let st := runPair cfg ma mb dsT
      (.ok { state := st,
             summary := build_summary ma.display_name mb.display_name
               (capsOf cfg) st.statsA st.statsB dsT.length },
       st.calls)
  | _ => (.error "Currently only 2-model comparison is supported", [])

/-- Total of the win/tie/loss counters of one statistics cell. -/
def capSum (s : CapStat) : ℕ := s.wins + s.ties + s.losses

/-- The judge conversation as it stands before attempt `n` of `_judge_once`
(spec-side description of the retry protocol): the initial user prompt,
then for each failed attempt the malformed reply and the corrective
instruction. -/
def attemptMsgs (reply : List Msg → String) (prompt : String) : ℕ → List Msg
  | 0 => [⟨"user", prompt⟩]
  | n + 1 =>
      attemptMsgs reply prompt n ++
        [⟨"assistant", reply (attemptMsgs reply prompt n)⟩,
         ⟨"user", correctiveInstruction⟩]

/-- The judge's reply text at attempt `n`. -/
def attemptText (reply : List Msg → String) (prompt : String) (n : ℕ) :
    String :=
  reply (attemptMsgs reply prompt n)

/-- First concrete model configuration for witnesses. -/
def wModelA : ModelCfg := ⟨"openai", "gpt-4o-mini", "m1"⟩

/-- Second concrete model configuration for witnesses. -/
def wModelB : ModelCfg := ⟨"anthropic", "claude", "m2"⟩

/-- Concrete engine configuration whose judge always replies unparseable
text (used to exercise the fallback path). -/
def wCfg : EngineCfg :=
  { models := [wModelA, wModelB],
    capabilities := ["chat_completion"],
    system_prompt := "You are a waiter.",
    judgeModel := "gpt-4o",
    maxItems := none,
    gateway := fun _ _ => "resp",
    judgeGateway := fun _ => "nope" }

/-- Concrete engine configuration whose judge always declares A the winner
with strict JSON. -/
def wCfgA : EngineCfg :=
  { wCfg with
    judgeGateway := fun _ =>
      "\x7b\"winner\": \"A\", \"score_A\": 9, \"score_B\": 2, \"reasons\": []\x7d" }

/-- Concrete one-model configuration (invalid model count). -/
def wCfg1 : EngineCfg := { wCfg with models := [wModelA] }

theorem clampSpec_clamp_score (v : JVal) : clampSpec (pyFloat v) (clamp_score v) := by
  unfold clamp_score clampSpec
  cases h : pyFloat v with
  | none => simp
  | some f => cases f <;> simp [clampFF]

theorem clamp_score_range (v : JVal) :
    clamp_score v = .nan ∨ ffIn0to10 (clamp_score v) = true := by
  unfold clamp_score
  cases h : pyFloat v with
  | none => right; rfl
  | some f =>
    cases f with
    | nan => left; rfl
    | inf => right; rfl
    | ninf => right; rfl
    | rat q =>
      right
      simp only [clampFF, ffIn0to10, decide_eq_true_eq]
      split_ifs with h1 h2 <;> constructor <;> linarith

theorem reasonsOf_length_le (v : JVal) : (reasonsOf v).length ≤ 8 := by
  unfold reasonsOf
  exact List.length_take_le _ _

theorem clampSpec_zero : clampSpec (some (.rat 0)) (.rat 0) := by
  simp only [clampSpec]
  norm_num

theorem ffIn0to10_zero : ffIn0to10 (.rat 0) = true := by
  simp only [ffIn0to10, decide_eq_true_eq]
  norm_num

/-- **C2** (amended for NaN).  For every raw judge payload, including
non-dicts, `normalize_judge_result` yields a winner among {A, B, tie} and a
reasons list of at most 8 strings; each score satisfies the clamping
contract on the corresponding raw value — 0 when missing or non-numeric,
clamped into [0, 10] for rationals and infinities, NaN passed through — and
is therefore either NaN or a rational in [0, 10]. -/
theorem normalize_judge_result_shape (obj : JVal) :
    (normalize_judge_result obj).winner ∈ (["A", "B", "tie"] : List String) ∧
    (normalize_judge_result obj).reasons.length ≤ 8 ∧
    clampSpec (pyFloat (jgetD obj "score_A" (.num (.rat 0))))
      ((normalize_judge_result obj).score_A) ∧
    clampSpec (pyFloat (jgetD obj "score_B" (.num (.rat 0))))
      ((normalize_judge_result obj).score_B) ∧
    ((normalize_judge_result obj).score_A = .nan ∨
      ffIn0to10 ((normalize_judge_result obj).score_A) = true) ∧
    ((normalize_judge_result obj).score_B = .nan ∨
      ffIn0to10 ((normalize_judge_result obj).score_B) = true) := by
  cases obj with
  | obj kvs =>
    refine ⟨?_, reasonsOf_length_le _, clampSpec_clamp_score _,
      clampSpec_clamp_score _, clamp_score_range _, clamp_score_range _⟩
    show (match jgetD (.obj kvs) "winner" (.str "tie") with
      | .str s => if s = "A" ∨ s = "B" ∨ s = "tie" then s else "tie"
      | _ => "tie") ∈ (["A", "B", "tie"] : List String)
    cases jgetD (.obj kvs) "winner" (.str "tie") with
    | str s =>
      simp only
      split_ifs with h
      · rcases h with h | h | h <;> simp [h]
      · simp
    | null => simp
    | bool b => simp
    | num f => simp
    | arr l => simp
    | obj o => simp
  | null => exact ⟨by simp [normalize_judge_result], by simp [normalize_judge_result],
      clampSpec_zero, clampSpec_zero, Or.inr ffIn0to10_zero, Or.inr ffIn0to10_zero⟩
  | bool b => exact ⟨by simp [normalize_judge_result], by simp [normalize_judge_result],
      clampSpec_zero, clampSpec_zero, Or.inr ffIn0to10_zero, Or.inr ffIn0to10_zero⟩
  | num f => exact ⟨by simp [normalize_judge_result], by simp [normalize_judge_result],
      clampSpec_zero, clampSpec_zero, Or.inr ffIn0to10_zero, Or.inr ffIn0to10_zero⟩
  | str s => exact ⟨by simp [normalize_judge_result], by simp [normalize_judge_result],
      clampSpec_zero, clampSpec_zero, Or.inr ffIn0to10_zero, Or.inr ffIn0to10_zero⟩
  | arr l => exact ⟨by simp [normalize_judge_result], by simp [normalize_judge_result],
      clampSpec_zero, clampSpec_zero, Or.inr ffIn0to10_zero, Or.inr ffIn0to10_zero⟩

/-- **C2, counterexample.**  A judge reply whose `score_A` is the JSON
literal `NaN` (accepted by `json.loads`) is parsed by `safe_json_loads`,
and normalization passes the NaN through: the resulting `score_A` is not in
[0, 10], refuting the claim as stated. -/
theorem normalize_judge_result_nan_counterexample :
    safe_json_loads "\x7b\"winner\": \"A\", \"score_A\": NaN, \"reasons\": []\x7d"
      = some (JVal.obj [("winner", .str "A"), ("score_A", .num .nan),
          ("reasons", .arr [])]) ∧
    (normalize_judge_result (JVal.obj [("winner", .str "A"),
        ("score_A", .num .nan), ("reasons", .arr [])])).score_A = FF.nan ∧
    ffIn0to10 ((normalize_judge_result (JVal.obj [("winner", .str "A"),
        ("score_A", .num .nan), ("reasons", .arr [])])).score_A) = false := by
  refine ⟨?_, rfl, rfl⟩
  rfl

/-- **C1.**  `swap_mitigated_winner` returns the direct-order winner
exactly when it coincides with the remapped swapped-order winner (A↦B,
B↦A, tie↦tie), and returns "tie" — never "A" or "B" — whenever the two
disagree. -/
theorem swap_mitigated_winner_agreement (j1 j2 : NormVerdict) :
    (j1.winner = specRemapWinner j2.winner →
      swap_mitigated_winner j1 j2 = j1.winner) ∧
    (j1.winner ≠ specRemapWinner j2.winner →
      swap_mitigated_winner j1 j2 = "tie") := by
  have he : swap_mitigated_winner j1 j2
      = if j1.winner = specRemapWinner j2.winner then j1.winner else "tie" := rfl
  constructor <;> intro h
  · rw [he, if_pos h]
  · rw [he, if_neg h]

/-- **C1, witness.**  Concrete disagreement: both judge runs name the
first-presented response, so the remapped verdicts clash and the result is
a tie. -/
theorem swap_mitigated_winner_agreement_witness :
    swap_mitigated_winner ⟨"A", .rat 0, .rat 0, []⟩ ⟨"A", .rat 0, .rat 0, []⟩
      = "tie" :=
  (swap_mitigated_winner_agreement ⟨"A", .rat 0, .rat 0, []⟩
    ⟨"A", .rat 0, .rat 0, []⟩).2 (by decide)

theorem ffAdd_comm (a b : FF) : ffAdd a b = ffAdd b a := by
  cases a <;> cases b <;> simp [ffAdd, add_comm]

/-- **C4.**  The reconciled verdict's scores are the swap-corrected
averages rounded to one decimal: side A averages direct `score_A` with
swapped `score_B`, side B the mirror image — both at the reconciliation
step and through the full `evaluate_pair` pipeline. -/
theorem evaluate_pair_score_averaging (j1 j2 : NormVerdict)
    (reply : List Msg → String) (model : String) (max_retries : ℕ)
    (conversation : List JVal) (a b sys role : String) :
    (combineVerdicts j1 j2).score_A
        = ffRound 1 (ffHalf (ffAdd j1.score_A j2.score_B)) ∧
    (combineVerdicts j1 j2).score_B
        = ffRound 1 (ffHalf (ffAdd j1.score_B j2.score_A)) ∧
    (evaluate_pair reply model max_retries conversation a b sys role).1.score_A
        = ffRound 1 (ffHalf (ffAdd
            (judge_once reply model max_retries
              (judgePrompt role (convTranscript conversation) a b)).1.score_A
            (judge_once reply model max_retries
              (judgePrompt role (convTranscript conversation) b a)).1.score_B)) ∧
    (evaluate_pair reply model max_retries conversation a b sys role).1.score_B
        = ffRound 1 (ffHalf (ffAdd
            (judge_once reply model max_retries
              (judgePrompt role (convTranscript conversation) a b)).1.score_B
            (judge_once reply model max_retries
              (judgePrompt role (convTranscript conversation) b a)).1.score_A)) :=
  ⟨rfl, rfl, rfl, rfl⟩

/-- **C9.**  Reconciliation is symmetric under exchanging the two
candidates: feeding the two raw verdicts in the opposite roles flips the
winner through the A/B remap (tie staying tie) and exchanges the two final
scores. -/
theorem swap_mitigation_symmetry (j1 j2 : NormVerdict) :
    swap_mitigated_winner j2 j1 = specRemapWinner (swap_mitigated_winner j1 j2) ∧
    (combineVerdicts j2 j1).winner
      = specRemapWinner ((combineVerdicts j1 j2).winner) ∧
    (combineVerdicts j2 j1).score_A = (combineVerdicts j1 j2).score_B ∧
    (combineVerdicts j2 j1).score_B = (combineVerdicts j1 j2).score_A := by
  have hw : swap_mitigated_winner j2 j1
      = specRemapWinner (swap_mitigated_winner j1 j2) := by
    unfold swap_mitigated_winner specRemapWinner
    by_cases h1 : j1.winner = "A" <;> by_cases h2 : j1.winner = "B" <;>
      by_cases h3 : j2.winner = "A" <;> by_cases h4 : j2.winner = "B" <;>
      by_cases h5 : j1.winner = "tie" <;> by_cases h6 : j2.winner = "tie" <;>
      simp_all
  exact ⟨hw, hw, by simp [combineVerdicts, ffAdd_comm],
    by simp [combineVerdicts, ffAdd_comm]⟩

theorem judgeOnceAux_succ (reply : List Msg → String) (model : String)
    (fuel : ℕ) (msgs : List Msg) (last_text : String) :
    judgeOnceAux reply model (fuel + 1) msgs last_text =
      match safe_json_loads (reply msgs) with
      | some o => (normalize_judge_result o, [⟨model, msgs⟩])
      | none =>
          let rest := judgeOnceAux reply model fuel
            (msgs ++ [⟨"assistant", reply msgs⟩, ⟨"user", correctiveInstruction⟩])
            (reply msgs)
          (rest.1, ⟨model, msgs⟩ :: rest.2) := rfl

theorem judgeOnceAux_trace_le (reply : List Msg → String) (model : String)
    (n : ℕ) (msgs : List Msg) (last_text : String) :
    (judgeOnceAux reply model n msgs last_text).2.length ≤ n := by
  induction n generalizing msgs last_text with
  | zero => simp [judgeOnceAux]
  | succ n ih =>
    rw [judgeOnceAux_succ]
    cases h : safe_json_loads (reply msgs) with
    | some o => simp
    | none => simpa using ih _ _

/-- **C3.**  One judged comparison always terminates with a well-formed
verdict: the first attempt whose reply parses (including replies wrapped in
a markdown code fence) is normalized and returned; each parse failure
appends the malformed reply plus the corrective instruction and retries, at
most twice; if all three attempts fail the result is the deterministic
tie/0/0 fallback naming the last reply.  At most three judge calls are
issued. -/
theorem judge_once_protocol (reply : List Msg → String) (model : String)
    (prompt : String) :
    ((judge_once reply model 2 prompt).1 =
      match safe_json_loads (attemptText reply prompt 0) with
      | some o => normalize_judge_result o
      | none =>
        match safe_json_loads (attemptText reply prompt 1) with
        | some o => normalize_judge_result o
        | none =>
          match safe_json_loads (attemptText reply prompt 2) with
          | some o => normalize_judge_result o
          | none => fallbackVerdict (attemptText reply prompt 2)) ∧
    (judge_once reply model 2 prompt).2.length ≤ 3 ∧
    (safe_json_loads (attemptText reply prompt 0) = none →
     safe_json_loads (attemptText reply prompt 1) = none →
     safe_json_loads (attemptText reply prompt 2) = none →
      (judge_once reply model 2 prompt).1 =
        { winner := "tie", score_A := .rat 0, score_B := .rat 0,
          reasons := ["Judge output not parseable as JSON. Last: "
            ++ (attemptText reply prompt 2).take 200] }) ∧
    safe_json_loads "```json\n\x7b\"winner\": \"B\"\x7d\n```"
      = some (.obj [("winner", .str "B")]) := by
  have main : (judge_once reply model 2 prompt).1 =
      match safe_json_loads (attemptText reply prompt 0) with
      | some o => normalize_judge_result o
      | none =>
        match safe_json_loads (attemptText reply prompt 1) with
        | some o => normalize_judge_result o
        | none =>
          match safe_json_loads (attemptText reply prompt 2) with
          | some o => normalize_judge_result o
          | none => fallbackVerdict (attemptText reply prompt 2) := by
    show (judgeOnceAux reply model 3 (attemptMsgs reply prompt 0) "").1 = _
    rw [judgeOnceAux_succ]
    cases h0 : safe_json_loads (attemptText reply prompt 0) with
    | some o =>
      rw [show safe_json_loads (reply (attemptMsgs reply prompt 0))
            = some o from h0]
    | none =>
      rw [show safe_json_loads (reply (attemptMsgs reply prompt 0))
            = none from h0]
      show (judgeOnceAux reply model 2 (attemptMsgs reply prompt 1)
        (attemptText reply prompt 0)).1 = _
      rw [judgeOnceAux_succ]
      cases h1 : safe_json_loads (attemptText reply prompt 1) with
      | some o =>
        rw [show safe_json_loads (reply (attemptMsgs reply prompt 1))
              = some o from h1]
      | none =>
        rw [show safe_json_loads (reply (attemptMsgs reply prompt 1))
              = none from h1]
        show (judgeOnceAux reply model 1 (attemptMsgs reply prompt 2)
          (attemptText reply prompt 1)).1 = _
        rw [judgeOnceAux_succ]
        cases h2 : safe_json_loads (attemptText reply prompt 2) with
        | some o =>
          rw [show safe_json_loads (reply (attemptMsgs reply prompt 2))
                = some o from h2]
        | none =>
          rw [show safe_json_loads (reply (attemptMsgs reply prompt 2))
                = none from h2]
          rfl
  refine ⟨main, judgeOnceAux_trace_le reply model 3 _ _, ?_, rfl⟩
  intro h0 h1 h2
  rw [main, h0, h1, h2]
  rfl

/-- **C3, witness.**  A judge that always answers unparseable text yields
the deterministic fallback verdict after the three attempts. -/
theorem judge_once_protocol_witness :
    (judge_once (fun _ => "nope") "gpt-4o" 2 "p").1 =
      { winner := "tie", score_A := .rat 0, score_B := .rat 0,
        reasons := ["Judge output not parseable as JSON. Last: "
          ++ ("nope" : String).take 200] } :=
  (judge_once_protocol (fun _ => "nope") "gpt-4o" "p").2.2.1 rfl rfl rfl

theorem mem_dedupFirstAux {α : Type} [DecidableEq α] (a : α) (l : List α) :
    ∀ seen, a ∈ dedupFirstAux seen l ↔ a ∈ l ∧ a ∉ seen := by
  induction l with
  | nil => intro seen; simp [dedupFirstAux]
  | cons x xs ih =>
    intro seen
    simp only [dedupFirstAux]
    split_ifs with hx
    · rw [ih seen]
      by_cases hax : a = x
      · subst hax; simp [hx]
      · simp [hax]
    · by_cases hax : a = x
      · subst hax; simp [hx]
      · simp [hax, ih (x :: seen)]

theorem nodup_dedupFirstAux {α : Type} [DecidableEq α] (l : List α) :
    ∀ seen, (dedupFirstAux seen l).Nodup := by
  induction l with
  | nil => intro seen; simp [dedupFirstAux]
  | cons x xs ih =>
    intro seen
    simp only [dedupFirstAux]
    split_ifs with hx
    · exact ih seen
    · refine List.nodup_cons.mpr ⟨?_, ih (x :: seen)⟩
      rw [mem_dedupFirstAux]
      simp

theorem mem_dedupFirst {α : Type} [DecidableEq α] (a : α) (l : List α) :
    a ∈ dedupFirst l ↔ a ∈ l := by
  rw [dedupFirst, mem_dedupFirstAux]
  simp

theorem count_dedupFirst_eq_one {α : Type} [DecidableEq α] {a : α}
    {l : List α} (h : a ∈ l) : (dedupFirst l).count a = 1 :=
  List.count_eq_one_of_mem (nodup_dedupFirstAux l [])
    ((mem_dedupFirst a l).mpr h)

theorem capSum_applyRecord (st : RunState) (r : CaseRecord) (cap : String) :
    capSum ((applyRecord st r).statsA cap)
        = capSum (st.statsA cap) + (if cap = r.capability then 1 else 0) ∧
    capSum ((applyRecord st r).statsB cap)
        = capSum (st.statsB cap) + (if cap = r.capability then 1 else 0) := by
  unfold applyRecord bumpCap capSum
  by_cases hA : r.winner = "A" <;> by_cases hB : r.winner = "B" <;>
    by_cases hc : cap = r.capability <;>
    simp [hA, hB, hc] <;> omega

theorem results_applyRecord (st : RunState) (r : CaseRecord) :
    (applyRecord st r).results = st.results ++ [r] := by
  unfold applyRecord
  split_ifs <;> rfl

theorem statsA_calls_update (st : RunState) (c : List GatewayCall) :
    ({ st with calls := c } : RunState).statsA = st.statsA := rfl

theorem capSum_foldRecords (cells : List (CaseRecord × List GatewayCall))
    (cap : String) : ∀ st : RunState,
    (capSum (((cells.foldl (fun s cell => applyRecord s cell.1) st)).statsA cap)
        = capSum (st.statsA cap)
          + (cells.map (fun c => c.1.capability)).count cap) ∧
    (capSum (((cells.foldl (fun s cell => applyRecord s cell.1) st)).statsB cap)
        = capSum (st.statsB cap)
          + (cells.map (fun c => c.1.capability)).count cap) := by
  induction cells with
  | nil => intro st; simp
  | cons c t ih =>
    intro st
    have h := capSum_applyRecord st c.1 cap
    have h2 := ih (applyRecord st c.1)
    simp only [List.foldl_cons, List.map_cons, List.count_cons, beq_iff_eq]
    constructor
    · rw [h2.1, h.1]
      by_cases hc : cap = c.1.capability
      · rw [if_pos hc, if_pos hc.symm]
        omega
      · rw [if_neg hc, if_neg (fun hh => hc hh.symm)]
        omega
    · rw [h2.2, h.2]
      by_cases hc : cap = c.1.capability
      · rw [if_pos hc, if_pos hc.symm]
        omega
      · rw [if_neg hc, if_neg (fun hh => hc hh.symm)]
        omega

theorem results_foldRecords (cells : List (CaseRecord × List GatewayCall)) :
    ∀ st : RunState,
    (cells.foldl (fun s cell => applyRecord s cell.1) st).results
      = st.results ++ cells.map (fun c => c.1) := by
  induction cells with
  | nil => intro st; simp
  | cons c t ih =>
    intro st
    simp only [List.foldl_cons, List.map_cons]
    rw [ih (applyRecord st c.1), results_applyRecord]
    simp

theorem caseCell_capability (cfg : EngineCfg) (ma mb : ModelCfg) (idx : ℕ)
    (tc : JVal) (cap : String) :
    (caseCell cfg ma mb idx tc cap).1.capability = cap := rfl

theorem capSum_processCase (cfg : EngineCfg) (ma mb : ModelCfg)
    (st : RunState) (idx : ℕ) (tc : JVal) (cap : String) :
    (capSum ((processCase cfg ma mb st idx tc).statsA cap)
        = capSum (st.statsA cap) + (capsOf cfg).count cap) ∧
    (capSum ((processCase cfg ma mb st idx tc).statsB cap)
        = capSum (st.statsB cap) + (capsOf cfg).count cap) := by
  unfold processCase
  have h := capSum_foldRecords
    ((capsOf cfg).map (fun cap => caseCell cfg ma mb idx tc cap)) cap st
  have hmap : (((capsOf cfg).map (fun cap => caseCell cfg ma mb idx tc cap)).map
      (fun c => c.1.capability)) = capsOf cfg := by
    rw [List.map_map]
    exact List.map_id _
  rw [hmap] at h
  exact h

theorem results_processCase (cfg : EngineCfg) (ma mb : ModelCfg)
    (st : RunState) (idx : ℕ) (tc : JVal) :
    (processCase cfg ma mb st idx tc).results
      = st.results ++ caseResults cfg ma mb idx tc := by
  unfold processCase caseResults
  rw [show ∀ s : RunState, ∀ c, ({ s with calls := c } : RunState).results
      = s.results from fun _ _ => rfl]
  rw [results_foldRecords]
  rw [List.map_map]
  rfl

theorem capSum_foldCases (cfg : EngineCfg) (ma mb : ModelCfg)
    (ps : List (ℕ × JVal)) (cap : String) : ∀ st : RunState,
    (capSum ((ps.foldl (fun s p => processCase cfg ma mb s p.1 p.2) st).statsA cap)
        = capSum (st.statsA cap) + ps.length * (capsOf cfg).count cap) ∧
    (capSum ((ps.foldl (fun s p => processCase cfg ma mb s p.1 p.2) st).statsB cap)
        = capSum (st.statsB cap) + ps.length * (capsOf cfg).count cap) := by
  induction ps with
  | nil => intro st; simp
  | cons p t ih =>
    intro st
    have h := capSum_processCase cfg ma mb st p.1 p.2 cap
    have h2 := ih (processCase cfg ma mb st p.1 p.2)
    simp only [List.foldl_cons, List.length_cons]
    constructor
    · rw [h2.1, h.1]; ring
    · rw [h2.2, h.2]; ring

theorem results_foldCases (cfg : EngineCfg) (ma mb : ModelCfg)
    (ps : List (ℕ × JVal)) : ∀ st : RunState,
    (ps.foldl (fun s p => processCase cfg ma mb s p.1 p.2) st).results
      = st.results
        ++ (ps.map (fun p => caseResults cfg ma mb p.1 p.2)).flatten := by
  induction ps with
  | nil => intro st; simp
  | cons p t ih =>
    intro st
    simp only [List.foldl_cons, List.map_cons, List.flatten_cons]
    rw [ih (processCase cfg ma mb st p.1 p.2), results_processCase]
    simp

theorem runPair_capSum (cfg : EngineCfg) (ma mb : ModelCfg)
    (ds : List JVal) (cap : String) (hcap : cap ∈ cfg.capabilities) :
    capSum ((runPair cfg ma mb ds).statsA cap) = ds.length ∧
    capSum ((runPair cfg ma mb ds).statsB cap) = ds.length := by
  unfold runPair
  have h := capSum_foldCases cfg ma mb ds.enum cap initialState
  have hcount : (capsOf cfg).count cap = 1 := count_dedupFirst_eq_one hcap
  have hinit : capSum (initialState.statsA cap) = 0 := rfl
  have hinitB : capSum (initialState.statsB cap) = 0 := rfl
  rw [hcount] at h
  constructor
  · rw [h.1, hinit, List.enum_length]; omega
  · rw [h.2, hinitB, List.enum_length]; omega

/-- **C5.**  In every completed two-model run (distinct display names, so
the source's name-keyed statistics maps have two entries), for each model
and each configured capability, wins + ties + losses equals the number of
test cases judged for that capability — each per-case update increments
exactly one counter per model. -/
theorem run_stats_partition (cfg : EngineCfg) (ma mb : ModelCfg)
    (ds : List JVal) (cap : String)
    (_hname : ma.display_name ≠ mb.display_name)
    (hcap : cap ∈ cfg.capabilities) :
    capSum ((runPair cfg ma mb ds).statsA cap) = ds.length ∧
    capSum ((runPair cfg ma mb ds).statsB cap) = ds.length :=
  runPair_capSum cfg ma mb ds cap hcap

/-- **C5, witness.** -/
theorem run_stats_partition_witness :
    capSum ((runPair wCfg wModelA wModelB
        [JVal.obj [("turns", .arr [.str "hi"])]]).statsA "chat_completion")
      = 1 :=
  (run_stats_partition wCfg wModelA wModelB
    [JVal.obj [("turns", .arr [.str "hi"])]] "chat_completion"
    (by decide) (by decide)).1

/-- **C6.**  The summary's overall winner is the model whose total win
count (summed across capabilities) is strictly greater; equal totals give
"tie", regardless of ties, losses, or average scores. -/
theorem build_summary_overall_winner (nameA nameB : String)
    (caps : List String) (statsA statsB : String → CapStat) (total : ℕ)
    (_h : nameA ≠ nameB) :
    ((build_summary nameA nameB caps statsA statsB total).modelB.total_wins
        < (build_summary nameA nameB caps statsA statsB total).modelA.total_wins →
      (build_summary nameA nameB caps statsA statsB total).overall_winner = nameA) ∧
    ((build_summary nameA nameB caps statsA statsB total).modelA.total_wins
        < (build_summary nameA nameB caps statsA statsB total).modelB.total_wins →
      (build_summary nameA nameB caps statsA statsB total).overall_winner = nameB) ∧
    ((build_summary nameA nameB caps statsA statsB total).modelA.total_wins
        = (build_summary nameA nameB caps statsA statsB total).modelB.total_wins →
      (build_summary nameA nameB caps statsA statsB total).overall_winner = "tie") := by
  have ew : (build_summary nameA nameB caps statsA statsB total).overall_winner
      = if (build_summary nameA nameB caps statsA statsB total).modelB.total_wins
            < (build_summary nameA nameB caps statsA statsB total).modelA.total_wins
        then nameA
        else if (build_summary nameA nameB caps statsA statsB total).modelA.total_wins
            < (build_summary nameA nameB caps statsA statsB total).modelB.total_wins
        then nameB
        else "tie" := rfl
  refine ⟨fun h1 => ?_, fun h2 => ?_, fun h3 => ?_⟩
  · rw [ew, if_pos h1]
  · rw [ew, if_neg (by omega), if_pos h2]
  · rw [ew, if_neg (by omega), if_neg (by omega)]

/-- **C6, witness.**  The spec's example scenario: 7 wins against 3 makes
the first model the overall winner. -/
theorem build_summary_overall_winner_witness :
    (build_summary "m1" "m2" ["chat_completion"]
        (fun _ => ⟨7, 2, 1, []⟩) (fun _ => ⟨3, 2, 5, []⟩) 10).overall_winner
      = "m1" :=
  (build_summary_overall_winner "m1" "m2" ["chat_completion"]
    (fun _ => ⟨7, 2, 1, []⟩) (fun _ => ⟨3, 2, 5, []⟩) 10 (by decide)).1
    (by decide)

/-- **C8.**  Any configuration whose model list does not have exactly two
entries makes `run` fail with the source's `ValueError` message, with no
model-gateway or judge call issued. -/
theorem run_model_count_precondition (cfg : EngineCfg) (ds : List JVal)
    (h : cfg.models.length ≠ 2) :
    engineRun cfg ds
      = (.error "Currently only 2-model comparison is supported", []) := by
  unfold engineRun
  match hm : cfg.models with
  | [] => rfl
  | [_] => rfl
  | [_, _] => exact absurd (by rw [hm] ; rfl) h
  | _ :: _ :: _ :: _ => rfl

/-- **C8, witness.**  A one-model configuration is rejected before any
network activity. -/
theorem run_model_count_precondition_witness :
    engineRun wCfg1 []
      = (.error "Currently only 2-model comparison is supported", []) :=
  run_model_count_precondition wCfg1 [] (by decide)

/-- **C7, failing input.**  The capability validator rejects a test case
without `turns`, but neither the loader nor the engine ever calls it: for
the dataset `[{"category": "greeting"}]` the engine still issues both model
calls and both judge calls, records a result, and counts the case in the
statistics — the case is not excluded from the pipeline. -/
theorem missing_turns_case_enters_pipeline :
    validate_test_case (JVal.obj [("category", .str "greeting")]) = false ∧
    (runPair wCfgA wModelA wModelB
        [JVal.obj [("category", .str "greeting")]]).calls.length = 4 ∧
    (runPair wCfgA wModelA wModelB
        [JVal.obj [("category", .str "greeting")]]).results.length = 1 ∧
    capSum ((runPair wCfgA wModelA wModelB
        [JVal.obj [("category", .str "greeting")]]).statsA "chat_completion")
      = 1 := by
  refine ⟨rfl, rfl, rfl, rfl⟩

theorem runPair_results (cfg : EngineCfg) (ma mb : ModelCfg)
    (ds : List JVal) :
    (runPair cfg ma mb ds).results
      = (ds.enum.map (fun p => caseResults cfg ma mb p.1 p.2)).flatten := by
  unfold runPair
  rw [results_foldCases]
  rfl

theorem caseResults_infix_of_get (cfg : EngineCfg) (ma mb : ModelCfg)
    (ds : List JVal) (idx : ℕ) (tc : JVal) (hget : ds[idx]? = some tc) :
    caseResults cfg ma mb idx tc <:+: (runPair cfg ma mb ds).results := by
  rw [runPair_results]
  have hmem : (idx, tc) ∈ ds.enum := List.mem_enum_iff_getElem?.mpr hget
  have hmem2 : caseResults cfg ma mb idx tc
      ∈ ds.enum.map (fun p => caseResults cfg ma mb p.1 p.2) :=
    List.mem_map_of_mem _ hmem
  obtain ⟨s, t, hst⟩ := List.append_of_mem hmem2
  rw [hst, List.flatten_append, List.flatten_cons]
  exact ⟨s.flatten, t.flatten, by simp⟩

theorem caseCell_missing_fields (cfg : EngineCfg) (ma mb : ModelCfg)
    (idx : ℕ) (tc : JVal) (cap : String)
    (hid : jget tc "id" = none) (hcat : jget tc "category" = none) :
    (caseCell cfg ma mb idx tc cap).1.test_id
        = .str ("case_" ++ toString idx) ∧
    (caseCell cfg ma mb idx tc cap).1.category = .str "unknown" := by
  constructor
  · show jgetD tc "id" (.str ("case_" ++ toString idx)) = _
    rw [jgetD, hid]
    rfl
  · show jgetD tc "category" (.str "unknown") = _
    rw [jgetD, hcat]
    rfl

theorem caseResults_missing_fields (cfg : EngineCfg) (ma mb : ModelCfg)
    (idx : ℕ) (tc : JVal)
    (hid : jget tc "id" = none) (hcat : jget tc "category" = none) :
    (caseResults cfg ma mb idx tc).map (fun r => (r.test_id, r.category))
      = List.replicate (capsOf cfg).length
          (JVal.str ("case_" ++ toString idx), JVal.str "unknown") := by
  unfold caseResults
  generalize capsOf cfg = L
  induction L with
  | nil => rfl
  | cons x xs ih =>
    have hx := caseCell_missing_fields cfg ma mb idx tc x hid hcat
    simp only [List.map_cons, List.length_cons, List.replicate_succ,
      List.cons.injEq]
    exact ⟨by rw [Prod.mk.injEq]; exact ⟨hx.1, hx.2⟩, ih⟩

/-- **C10.**  A test case missing `id` or `category` is not rejected: its
results are recorded with test id `case_<idx>` (zero-based dataset
position) and category `"unknown"`, its records appear in the run's result
log, and it is judged and counted in the statistics exactly like a
fully-specified case. -/
theorem run_missing_id_category (cfg : EngineCfg) (ma mb : ModelCfg)
    (ds : List JVal) (idx : ℕ) (tc : JVal) (cap : String)
    (_hname : ma.display_name ≠ mb.display_name)
    (hget : ds[idx]? = some tc)
    (hid : jget tc "id" = none) (hcat : jget tc "category" = none)
    (hcap : cap ∈ cfg.capabilities) :
    ((caseResults cfg ma mb idx tc).map (fun r => (r.test_id, r.category))
        = List.replicate (capsOf cfg).length
            (JVal.str ("case_" ++ toString idx), JVal.str "unknown")) ∧
    (caseResults cfg ma mb idx tc <:+: (runPair cfg ma mb ds).results) ∧
    capSum ((runPair cfg ma mb ds).statsA cap) = ds.length ∧
    capSum ((runPair cfg ma mb ds).statsB cap) = ds.length :=
  ⟨caseResults_missing_fields cfg ma mb idx tc hid hcat,
   caseResults_infix_of_get cfg ma mb ds idx tc hget,
   (runPair_capSum cfg ma mb ds cap hcap).1,
   (runPair_capSum cfg ma mb ds cap hcap).2⟩

/-- **C10, witness.**  A single-case dataset whose case has `turns` but no
`id` or `category`: the recorded fields are `case_0` / `"unknown"` and the
case is counted. -/
theorem run_missing_id_category_witness :
    ((caseResults wCfgA wModelA wModelB 0
          (JVal.obj [("turns", .arr [.str "hi"])])).map
        (fun r => (r.test_id, r.category))
      = List.replicate (capsOf wCfgA).length
          (JVal.str ("case_" ++ toString 0), JVal.str "unknown")) ∧
    capSum ((runPair wCfgA wModelA wModelB
        [JVal.obj [("turns", .arr [.str "hi"])]]).statsA "chat_completion")
      = [JVal.obj [("turns", .arr [.str "hi"])]].length := by
  have h := run_missing_id_category wCfgA wModelA wModelB
    [JVal.obj [("turns", .arr [.str "hi"])]] 0
    (JVal.obj [("turns", .arr [.str "hi"])]) "chat_completion"
    (by decide) rfl rfl rfl (by decide)
  exact ⟨h.1, h.2.2.1⟩

end DomainBench
